import Mathlib

/-!
Verification of the sidecar-generation and dataset-management core of the
Pennsieve dataset-management tools against its natural-language specification.

The Python source is shallowly embedded: Python `dict`s become insertion-ordered
association lists with Python update semantics, scalar JSON values become the
`Value` inductive, raised exceptions become `Except` results, and the remote
package API (delete/rename outcomes, metadata fetches) is abstracted by oracle
functions that the theorems quantify over.  All definitions are executable so
that theorems about concrete inputs evaluate by `rfl`/`decide`.
-/

/-! ## Python dict model

A Python `dict` is modelled as an insertion-ordered association list.
`dInsert` implements `d[k] = v`: an existing key keeps its position and gets the
new value, a new key is appended.  `dMerge d s` implements `{**d, **s}`:
the entries of `s` are inserted into `d` left to right, so keys of `d` come
first (with values from `s` on collision) followed by the keys only in `s`,
exactly Python dict-literal merge order. -/

def dGet {κ α : Type} [DecidableEq κ] : List (κ × α) → κ → Option α
  | [], _ => none
  | (a, b) :: t, k => if a = k then some b else dGet t k

def dContains {κ α : Type} [DecidableEq κ] (m : List (κ × α)) (k : κ) : Bool :=
  (dGet m k).isSome

def dInsert {κ α : Type} [DecidableEq κ] (m : List (κ × α)) (k : κ) (v : α) :
    List (κ × α) :=
  if dContains m k then
    m.map (fun kv => if kv.1 = k then (k, v) else kv)
  else
    m ++ [(k, v)]

def dMerge {κ α : Type} [DecidableEq κ] (d s : List (κ × α)) : List (κ × α) :=
  s.foldl (fun acc kv => dInsert acc kv.1 kv.2) d

def dKeys {κ α : Type} (m : List (κ × α)) : List κ := m.map Prod.fst

/-- Keys of a well-formed Python dict are pairwise distinct. -/
def NodupKeys {κ α : Type} (m : List (κ × α)) : Prop := (dKeys m).Nodup

theorem dGet_nil {κ α : Type} [DecidableEq κ] (k : κ) :
    dGet ([] : List (κ × α)) k = none := rfl

theorem dGet_cons {κ α : Type} [DecidableEq κ] (a : κ) (b : α) (t : List (κ × α))
    (k : κ) : dGet ((a, b) :: t) k = if a = k then some b else dGet t k := rfl

theorem dGet_append {κ α : Type} [DecidableEq κ] (l₁ l₂ : List (κ × α)) (k : κ) :
    dGet (l₁ ++ l₂) k = Option.or (dGet l₁ k) (dGet l₂ k) := by
  induction l₁ with
  | nil => simp [dGet_nil, Option.or]
  | cons hd t ih =>
    obtain ⟨a, b⟩ := hd
    by_cases h : a = k <;> simp [dGet_cons, h, ih, Option.or]

theorem dGet_eq_none_of_not_mem {κ α : Type} [DecidableEq κ] (m : List (κ × α))
    (k : κ) (h : k ∉ dKeys m) : dGet m k = none := by
  induction m with
  | nil => rfl
  | cons hd t ih =>
    obtain ⟨a, b⟩ := hd
    simp only [dKeys, List.map_cons, List.mem_cons, not_or] at h
    rw [dGet_cons, if_neg (fun hh => h.1 hh.symm)]
    exact ih (by simpa [dKeys] using h.2)

theorem dContains_cons {κ α : Type} [DecidableEq κ] (a : κ) (b : α)
    (t : List (κ × α)) (k : κ) :
    dContains ((a, b) :: t) k = if a = k then true else dContains t k := by
  by_cases h : a = k <;> simp [dContains, dGet_cons, h]

theorem dGet_map_update {κ α : Type} [DecidableEq κ] (m : List (κ × α))
    (k k' : κ) (v : α) :
    dGet (m.map (fun kv => if kv.1 = k then (k, v) else kv)) k' =
      if k' = k then (if dContains m k then some v else none)
      else dGet m k' := by
  induction m with
  | nil => by_cases h : k' = k <;> simp [dGet_nil, dContains, h]
  | cons hd t ih =>
    obtain ⟨a, b⟩ := hd
    rw [List.map_cons]
    by_cases ha : a = k
    · subst ha
      by_cases hk : k' = a
      · subst hk
        simp [dGet_cons, dContains_cons]
      · have hak : ¬ a = k' := fun h => hk h.symm
        simp [dGet_cons, ih, hk, hak]
    · by_cases hk' : a = k'
      · subst hk'
        simp [dGet_cons, ha]
      · simp [dGet_cons, dContains_cons, ha, hk', ih]

theorem dGet_insert {κ α : Type} [DecidableEq κ] (m : List (κ × α)) (k k' : κ)
    (v : α) :
    dGet (dInsert m k v) k' = if k' = k then some v else dGet m k' := by
  unfold dInsert
  by_cases hmem : dContains m k = true
  · rw [if_pos hmem, dGet_map_update, hmem]
    by_cases hk : k' = k <;> simp [hk]
  · have hnone : dGet m k = none := by
      cases h : dGet m k
      · rfl
      · exact absurd (by simp [dContains, h]) hmem
    rw [if_neg hmem, dGet_append]
    by_cases hk : k' = k
    · subst hk
      simp [hnone, dGet_cons, Option.or]
    · rw [if_neg hk]
      have hkk : ¬ k = k' := fun h => hk h.symm
      cases hg : dGet m k' <;>
        simp [Option.or, hg, dGet_cons, dGet_nil, hkk]

theorem dGet_merge {κ α : Type} [DecidableEq κ] (d s : List (κ × α))
    (hs : NodupKeys s) (k : κ) :
    dGet (dMerge d s) k = Option.or (dGet s k) (dGet d k) := by
  induction s generalizing d with
  | nil => simp [dMerge, dGet_nil, Option.or]
  | cons hd t ih =>
    obtain ⟨k₀, v₀⟩ := hd
    have hs' : (k₀ :: dKeys t).Nodup := by simpa [NodupKeys, dKeys] using hs
    have hnd : NodupKeys t := hs'.of_cons
    have hhd : k₀ ∉ dKeys t := (List.nodup_cons.mp hs').1
    show dGet (dMerge (dInsert d k₀ v₀) t) k = _
    rw [ih _ hnd, dGet_cons]
    by_cases hk : k₀ = k
    · subst hk
      rw [dGet_eq_none_of_not_mem t _ hhd, dGet_insert]
      simp [Option.or]
    · rw [if_neg hk, dGet_insert, if_neg (fun h => hk h.symm)]

/-! ## JSON values

Scalar and structured values appearing in sidecar field tables.  `Value.null`
stands for Python `None`; `Value.float m d` stands for the Python float with
decimal value `m / 10^d` (e.g. `.float 256 0` is `256.0`, `.float 1 2` is
`0.01`) — the repository only uses short decimal float literals, for which this
representation is exact. -/

inductive Value where
  | str : String → Value
  | int : Int → Value
  | float : Int → Nat → Value
  | bool : Bool → Value
  | null : Value
  | obj : List (String × Value) → Value
  | arr : List Value → Value

/-- Association list of string keys to JSON values: the model of one sidecar
record or one TSV row. -/
abbrev Record := List (String × Value)

/-! ## Sidecar field tables

The `DEFAULTS` / `ROW_DEFAULTS` / `REQUIRED_FIELDS` / `RECOMMENDED_FIELDS` /
`OPTIONAL_FIELDS` / `COLUMN_ORDER` class attributes of each sidecar type,
transcribed from `src/sidecar-generation/sidecars/`. -/

/-- Path-configuration keys that `Sidecar.__init__` strips out of the supplied
field mapping into `self.paths` (`base.py`, `excluded_fields`). -/
def sidecarExcludedFields : List String := ["output_dir", "input_dir", "bids_path"]

/-- Model of `base.py` `Sidecar.__init__`: the record keeps only the non-path
entries of the (already merged) field mapping, in order. -/
def sidecarDataOf (fields : Record) : Record :=
  fields.filter (fun kv => !(sidecarExcludedFields.contains kv.1))

/-- Record held by a JSON sidecar constructed from `fields`: the subclass
constructors first compute `{**DEFAULTS, **fields}` and then the base
constructor drops the path keys. -/
def jsonSidecarRecord (defaults fields : Record) : Record :=
  sidecarDataOf (dMerge defaults fields)

/-- Row stored by the TSV sidecar constructors and by `add_row`:
`{**ROW_DEFAULTS, **row}` (no path-key filtering on rows). -/
def mergedRow (rowDefaults row : Record) : Record :=
  dMerge rowDefaults row

/-- The coordsystem.py `CoordSystemSidecar.DEFAULTS` table. -/
def coordDefaults : Record :=
  [("iEEGCoordinateSystem", .str "fsnative"),
   ("iEEGCoordinateUnits", .str "mm"),
   ("iEEGCoordinateSystemDescription", .str "Native FreeSurfer surface space."),
   ("iEEGCoordinateProcessingDescription",
     .str "Processed using FreeSurfer recon-all pipeline."),
   ("iEEGCoordinateProcessingReference",
     .str "Dale, A.M., Fischl, B., Sereno, M.I., 1999. Cortical surface-based analysis. NeuroImage.")]

def coordRequiredFields : List String :=
  ["iEEGCoordinateSystem", "iEEGCoordinateUnits"]

def coordRecommendedFields : List String :=
  ["iEEGCoordinateSystemDescription",
   "iEEGCoordinateProcessingDescription",
   "iEEGCoordinateProcessingReference"]

def coordOptionalFields : List String := ["IntendedFor"]

/-- The ieeg.py `IeegSidecar.DEFAULTS` table. -/
def ieegDefaults : Record :=
  [("TaskName", .str "clinical"),
   ("PowerLineFrequency", .int 60),
   ("SamplingFrequency", .str "n/a"),
   ("SoftwareFilters", .str "n/a"),
   ("iEEGReference", .str "unknown"),
   ("iEEGGround", .str "unknown"),
   ("RecordingType", .str "discontinuous"),
   ("Manufacturer", .str "Natus"),
   ("ManufacturersModelName", .str "Quantum"),
   ("InstitutionName", .str "Penn Medicine"),
   ("ElectrodeManufacturer", .str "AD-TECH")]

/-- The eeg.py `EEGSidecar.DEFAULTS` table (`256.0` is the float 256). -/
def eegDefaults : Record :=
  [("TaskName", .str "default_task"),
   ("EEGReference", .str "Cz"),
   ("SamplingFrequency", .float 256 0),
   ("PowerLineFrequency", .int 60),
   ("SoftwareFilters", .str "n/a"),
   ("Manufacturer", .str "Unknown"),
   ("ManufacturersModelName", .str "Unknown"),
   ("EEGGround", .str "n/a"),
   ("RecordingType", .str "continuous"),
   ("HeadCircumference", .str "n/a"),
   ("ElectricalStimulation", .bool false),
   ("Description", .str "Automatically generated EEG sidecar file.")]

/-- The participants.py `ParticipantsSidecar.DEFAULTS` table. -/
def participantsJsonDefaults : Record :=
  [("participant_id", .obj
     [("Description", .str "Unique participant identifier"),
      ("Units", .str "string")]),
   ("species", .obj
     [("Description", .str "Species of the participant"),
      ("Units", .str "Homo sapiens")]),
   ("population", .obj
     [("Description", .str "Adult or pediatric"),
      ("Levels", .obj [("A", .str "adult"), ("P", .str "pediatric")])]),
   ("sex", .obj
     [("Description", .str "Biological sex of the participant"),
      ("Levels", .obj [("M", .str "male"), ("F", .str "female")])])]

/-- The channels.py `ChannelsSidecar.ROW_DEFAULTS` table. -/
def channelsRowDefaults : Record :=
  [("type", .str "SEEG"),
   ("units", .str "uV"),
   ("low_cutoff", .str "n/a"),
   ("high_cutoff", .str "n/a"),
   ("notch", .str "n/a"),
   ("reference", .str "unknown"),
   ("ground", .str "unknown"),
   ("group", .str "n/a"),
   ("sampling_frequency", .str "n/a")]

def channelsRequiredFields : List String :=
  ["name", "type", "units", "sampling_frequency", "low_cutoff", "high_cutoff",
   "notch", "reference", "group"]

def channelsRecommendedFields : List String := ["ground"]

def channelsOptionalFields : List String := ["description"]

/-- The channels.py `ChannelsSidecar.COLUMN_ORDER` list. -/
def channelsColumnOrder : List String :=
  ["name", "type", "units", "low_cutoff", "high_cutoff",
   "reference", "ground", "group", "sampling_frequency", "notch"]

/-- The electrodes.py `ElectrodesSidecar.ROW_DEFAULTS` table. -/
def electrodesRowDefaults : Record :=
  [("size", .str "n/a"),
   ("material", .str "n/a"),
   ("manufacturer", .str "n/a"),
   ("group", .str "n/a"),
   ("hemisphere", .str "n/a")]

def electrodesRequiredFields : List String := ["name", "x", "y", "z", "size"]

def electrodesRecommendedFields : List String :=
  ["material", "manufacturer", "group", "hemisphere"]

def electrodesOptionalFields : List String := ["type", "impedance", "dimension", "roi"]

/-- The events.py `EventsSidecar.ROW_DEFAULTS` table. -/
def eventsRowDefaults : Record :=
  [("duration", .str "n/a"),
   ("trial_type", .str "n/a")]

def eventsRequiredFields : List String := ["onset", "duration"]

def eventsRecommendedFields : List String := []

def eventsOptionalFields : List String :=
  ["trial_type", "response_time", "HED", "stim_file", "channel", "Description",
   "Parent", "Annotated", "Annotator", "Type", "Layer"]

/-- The participants_tsv.py `ParticipantsSideCarTSV.ROW_DEFAULTS` table. -/
def participantsTsvRowDefaults : Record :=
  [("species", .str "Homo sapiens"),
   ("age", .str "n/a"),
   ("population", .str "n/a"),
   ("sex", .str "n/a"),
   ("handedness", .str "n/a")]

theorem dGet_filter_key {κ α : Type} [DecidableEq κ] (p : κ → Bool)
    (m : List (κ × α)) (k : κ) :
    dGet (m.filter (fun kv => p kv.1)) k = if p k then dGet m k else none := by
  induction m with
  | nil => by_cases h : p k <;> simp [dGet_nil, h]
  | cons hd t ih =>
    obtain ⟨a, b⟩ := hd
    by_cases hk : a = k
    · subst hk
      by_cases hp : p a <;> simp [List.filter_cons, hp, dGet_cons, ih]
    · by_cases hp : p a <;> simp [List.filter_cons, hp, dGet_cons, hk, ih]

/-! ## String ordering and Python sorted

Python `sorted` on strings orders by code point.  `chCmp` is code-point
lexicographic comparison; `sortStrings` models `sorted` (insertion sort keeps
everything kernel-computable). -/

def chCmp : List Char → List Char → Ordering
  | [], [] => .eq
  | [], _ :: _ => .lt
  | _ :: _, [] => .gt
  | a :: as, b :: bs =>
    if a.toNat < b.toNat then .lt
    else if b.toNat < a.toNat then .gt
    else chCmp as bs

def strLe (a b : String) : Prop := chCmp a.data b.data ≠ .gt

instance : DecidableRel strLe := fun _ _ => instDecidableNot

theorem chCmp_swap (a b : List Char) : chCmp b a = (chCmp a b).swap := by
  induction a generalizing b with
  | nil => cases b <;> rfl
  | cons x xs ih =>
    cases b with
    | nil => rfl
    | cons y ys =>
      simp only [chCmp]
      rcases Nat.lt_trichotomy x.toNat y.toNat with h | h | h
      · rw [if_pos h, if_neg (Nat.lt_asymm h), if_pos h]
        rfl
      · rw [if_neg (by omega), if_neg (by omega), if_neg (by omega),
          if_neg (by omega), ih]
      · rw [if_pos h, if_neg (Nat.lt_asymm h), if_pos h]
        rfl

theorem chCmp_ne_gt_trans {a b c : List Char} (h₁ : chCmp a b ≠ .gt)
    (h₂ : chCmp b c ≠ .gt) : chCmp a c ≠ .gt := by
  induction a generalizing b c with
  | nil => cases c <;> simp [chCmp]
  | cons x xs ih =>
    cases b with
    | nil => simp [chCmp] at h₁
    | cons y ys =>
      cases c with
      | nil => simp [chCmp] at h₂
      | cons z zs =>
        simp only [chCmp] at h₁ h₂ ⊢
        by_cases hxy : x.toNat < y.toNat <;> by_cases hyx : y.toNat < x.toNat <;>
          by_cases hyz : y.toNat < z.toNat <;> by_cases hzy : z.toNat < y.toNat <;>
            simp only [hxy, hyx, hyz, hzy, if_true, if_false] at h₁ h₂ <;>
              first
                | exact absurd rfl h₁
                | exact absurd rfl h₂
                | · rw [if_pos (by omega)]
                    simp
                | · rw [if_neg (by omega), if_neg (by omega)]
                    exact ih h₁ h₂

instance : IsTotal String strLe := by
  constructor
  intro a b
  by_cases h : chCmp a.data b.data = .gt
  · right
    rw [strLe, chCmp_swap, h]
    decide
  · exact Or.inl h

instance : IsTrans String strLe := ⟨fun _ _ _ => chCmp_ne_gt_trans⟩

/-- Model of Python `sorted` on a collection of distinct strings. -/
def sortStrings (l : List String) : List String := l.insertionSort strLe

theorem mem_sortStrings {a : String} {l : List String} :
    a ∈ sortStrings l ↔ a ∈ l :=
  (List.perm_insertionSort strLe l).mem_iff

theorem sortStrings_sorted (l : List String) :
    (sortStrings l).Sorted strLe :=
  List.sorted_insertionSort strLe l

/-! ## Python string helpers -/

def isAsciiDigit (c : Char) : Bool := 48 ≤ c.toNat && c.toNat ≤ 57

/-- Whitespace stripped by Python `str.strip()` / `float()` (ASCII subset). -/
def isPyWhitespace (c : Char) : Bool :=
  c = ' ' || c = '\t' || c = '\n' || c = '\r' || c.toNat = 11 || c.toNat = 12

def stripChars (cs : List Char) : List Char :=
  ((cs.dropWhile isPyWhitespace).reverse.dropWhile isPyWhitespace).reverse

def asciiLowerChar (c : Char) : Char :=
  if 65 ≤ c.toNat && c.toNat ≤ 90 then Char.ofNat (c.toNat + 32) else c

/-- Model of Python `str.lower()` for the ASCII strings handled here. -/
def asciiLower (s : String) : String := String.mk (s.data.map asciiLowerChar)

/-- Model of Python `str.strip()` for ASCII content. -/
def pyStrip (s : String) : String := String.mk (stripChars s.data)

def dropSign : List Char → List Char
  | [] => []
  | c :: t => if c = '+' || c = '-' then t else c :: t

def pyFloatExp : List Char → Bool
  | [] => true
  | e :: t =>
    if e = 'e' || e = 'E' then
      let t₂ := match t with
        | c :: r => if c = '+' || c = '-' then r else c :: r
        | [] => []
      !t₂.isEmpty && t₂.all isAsciiDigit
    else false

def pyFloatBody (cs : List Char) : Bool :=
  let intPart := cs.takeWhile isAsciiDigit
  match cs.dropWhile isAsciiDigit with
  | '.' :: r₂ =>
    let frac := r₂.takeWhile isAsciiDigit
    (!intPart.isEmpty || !frac.isEmpty) && pyFloatExp (r₂.dropWhile isAsciiDigit)
  | rest => !intPart.isEmpty && pyFloatExp rest

/-- Model of CPython `float(str)` success: optional sign, decimal mantissa with
optional fraction and exponent, or inf/infinity/nan; surrounding whitespace is
stripped.  (Digit-group underscores, accepted by CPython 3.6+, are not
modelled; no value in this repository uses them.) -/
def pyFloatParses (s : String) : Bool :=
  let cs := dropSign (stripChars s.data)
  let low := cs.map asciiLowerChar
  if low = "inf".data || low = "infinity".data || low = "nan".data then true
  else pyFloatBody cs

/-- Whether Python `float(val)` succeeds on a JSON value: numbers and booleans
convert, strings parse by the grammar above, anything else raises
`TypeError`/`ValueError` (which the validators catch). -/
def pyFloatOk : Value → Bool
  | .str s => pyFloatParses s
  | .int _ => true
  | .float _ _ => true
  | .bool _ => true
  | .null => false
  | .obj _ => false
  | .arr _ => false

/-- The `val not in (None, "n/a", "N/A")` guard of the numeric checks. -/
def numericExempt : Value → Bool
  | .null => true
  | .str s => s == "n/a" || s == "N/A"
  | _ => false

example : pyFloatParses "0.01" = true := rfl
example : pyFloatParses "256" = true := rfl
example : pyFloatParses " -1.5e-3 " = true := rfl
example : pyFloatParses "abc" = false := rfl
example : pyFloatParses "" = false := rfl
example : pyFloatParses "1.2.3" = false := rfl
example : asciiLower "Other" = "other" := rfl

/-! ## Field validators (TSV sidecars)

The TSV validators (`channels.py`, `electrodes.py`, `events.py`) return
`(ok, {"errors": ..., "warnings": ..., "columns": ...})`.  The formatted
message strings are modelled structurally by `VMsg`; which list a finding is
appended to (errors vs warnings) is preserved exactly. -/

inductive VMsg where
  | missingRequired (fields : List String)
  | missingRecommended (fields : List String)
  | extraFields (fields : List String)
  | inconsistentRow (rowNum : Nat)
  | nonNumeric (rowNum : Nat) (field : String) (val : Value)
  | emptyData

structure VReport where
  errors : List VMsg
  warnings : List VMsg
  columns : List String

def insertNewKeys (acc : List String) (ks : List String) : List String :=
  ks.foldl (fun a k => if a.contains k then a else a ++ [k]) acc

/-- Model of `set().union(*(row.keys() for row in data))` as an
insertion-ordered duplicate-free list; only its membership and its sorted image
are ever consumed. -/
def observedFields (data : List Record) : List String :=
  data.foldl (fun acc row => insertNewKeys acc (dKeys row)) []

/-- Model of `sorted(DECLARED - observed)`. -/
def missingFrom (declared observed : List String) : List String :=
  sortStrings (declared.filter (fun f => !(observed.contains f)))

/-- Model of `sorted(observed - (required | recommended | optional))`. -/
def extraIn (observed req recd opt : List String) : List String :=
  sortStrings (observed.filter (fun f =>
    !(req.contains f || recd.contains f || opt.contains f)))

/-- Model of `set(row.keys()) == all_fields`. -/
def sameKeySet (row : Record) (observed : List String) : Bool :=
  (dKeys row).all observed.contains && observed.all (dKeys row).contains

/-- One warning per row whose key set differs from the observed union
(1-based row numbers as in the formatted messages). -/
def rowConsistencyWarnings (data : List Record) (observed : List String) :
    List VMsg :=
  data.enum.filterMap (fun iv =>
    if sameKeySet iv.2 observed then none else some (.inconsistentRow (iv.1 + 1)))

/-- The body of the numeric check for one row and one field:
`val = row.get(field, None)`, values in `{None, "n/a", "N/A"}` are exempt, and
otherwise a failing `float(val)` yields a finding. -/
def numericFailure (row : Record) (rowNum : Nat) (field : String) : Option VMsg :=
  match dGet row field with
  | none => none
  | some v =>
    if numericExempt v || pyFloatOk v then none
    else some (.nonNumeric rowNum field v)

/-- Numeric findings in channels.py order (`for field in numeric_fields: for
i, row in enumerate(data)`). -/
def numericMsgsFieldMajor (fields : List String) (data : List Record) :
    List VMsg :=
  fields.flatMap (fun field =>
    data.enum.filterMap (fun iv => numericFailure iv.2 (iv.1 + 1) field))

/-- Numeric findings in electrodes.py / events.py order (`for i, row in
enumerate(data): for field in numeric_fields`). -/
def numericMsgsRowMajor (fields : List String) (data : List Record) :
    List VMsg :=
  data.enum.flatMap (fun iv =>
    fields.filterMap (fun field => numericFailure iv.2 (iv.1 + 1) field))

def channelsNumericFields : List String :=
  ["low_cutoff", "high_cutoff", "sampling_frequency", "notch"]

def channelsMissingRequired (data : List Record) : List String :=
  missingFrom channelsRequiredFields (observedFields data)

def channelsExtraFields (data : List Record) : List String :=
  extraIn (observedFields data) channelsRequiredFields channelsRecommendedFields
    channelsOptionalFields

/-- Model of `ChannelsSidecar.validate`: missing-required is the only error
source; extra fields, inconsistent rows and numeric-parse failures are
warnings. -/
def channelsValidate (data : List Record) : Bool × VReport :=
  if data.isEmpty then (false, ⟨[.emptyData], [], []⟩)
  else
    let errors :=
      if (channelsMissingRequired data).isEmpty then []
      else [VMsg.missingRequired (channelsMissingRequired data)]
    let warnings :=
      (if (channelsExtraFields data).isEmpty then []
       else [VMsg.extraFields (channelsExtraFields data)])
      ++ rowConsistencyWarnings data (observedFields data)
      ++ numericMsgsFieldMajor channelsNumericFields data
    (errors.isEmpty, ⟨errors, warnings, sortStrings (observedFields data)⟩)

def electrodesNumericFields : List String := ["x", "y", "z", "size", "impedance"]

def electrodesMissingRequired (data : List Record) : List String :=
  missingFrom electrodesRequiredFields (observedFields data)

def electrodesMissingRecommended (data : List Record) : List String :=
  missingFrom electrodesRecommendedFields (observedFields data)

def electrodesExtraFields (data : List Record) : List String :=
  extraIn (observedFields data) electrodesRequiredFields
    electrodesRecommendedFields electrodesOptionalFields

def electrodesNumericErrors (data : List Record) : List VMsg :=
  numericMsgsRowMajor electrodesNumericFields data

/-- Model of `ElectrodesSidecar.validate`: numeric-parse failures are appended
to `errors` (unlike channels). -/
def electrodesValidate (data : List Record) : Bool × VReport :=
  if data.isEmpty then (false, ⟨[.emptyData], [], []⟩)
  else
    let errors :=
      (if (electrodesMissingRequired data).isEmpty then []
       else [VMsg.missingRequired (electrodesMissingRequired data)])
      ++ electrodesNumericErrors data
    let warnings :=
      (if (electrodesMissingRecommended data).isEmpty then []
       else [VMsg.missingRecommended (electrodesMissingRecommended data)])
      ++ (if (electrodesExtraFields data).isEmpty then []
          else [VMsg.extraFields (electrodesExtraFields data)])
      ++ rowConsistencyWarnings data (observedFields data)
    (errors.isEmpty, ⟨errors, warnings, sortStrings (observedFields data)⟩)

def eventsNumericFields : List String := ["onset", "duration", "response_time"]

def eventsMissingRequired (data : List Record) : List String :=
  missingFrom eventsRequiredFields (observedFields data)

def eventsExtraFields (data : List Record) : List String :=
  extraIn (observedFields data) eventsRequiredFields eventsRecommendedFields
    eventsOptionalFields

def eventsNumericErrors (data : List Record) : List VMsg :=
  numericMsgsRowMajor eventsNumericFields data

/-- Model of `EventsSidecar.validate`: like electrodes, numeric-parse failures
are appended to `errors`, not `warnings`. -/
def eventsValidate (data : List Record) : Bool × VReport :=
  if data.isEmpty then (false, ⟨[.emptyData], [], []⟩)
  else
    let errors :=
      (if (eventsMissingRequired data).isEmpty then []
       else [VMsg.missingRequired (eventsMissingRequired data)])
      ++ eventsNumericErrors data
    let warnings :=
      (if (eventsExtraFields data).isEmpty then []
       else [VMsg.extraFields (eventsExtraFields data)])
      ++ rowConsistencyWarnings data (observedFields data)
    (errors.isEmpty, ⟨errors, warnings, sortStrings (observedFields data)⟩)

/-! ## CoordSystem validator (JSON sidecar)

`CoordSystemSidecar.validate` raises `ValueError` (modelled as `Except.error`)
on schema violations or missing required fields, otherwise returns `True`;
missing-recommended and extra fields are only logged. -/

inductive CoordError where
  | schemaErrors (count : Nat)
  | missingRequired (fields : List String)

def valueIsStr : Value → Bool
  | .str _ => true
  | _ => false

/-- Schema type for `IntendedFor`: `oneOf` string / array of strings. -/
def intendedForOk : Value → Bool
  | .str _ => true
  | .arr items => items.all valueIsStr
  | _ => false

def coordSchemaStringProps : List String :=
  ["iEEGCoordinateSystem", "iEEGCoordinateUnits",
   "iEEGCoordinateSystemDescription", "iEEGCoordinateProcessingDescription",
   "iEEGCoordinateProcessingReference"]

/-- Number of violations of `CoordSystemSidecar.SCHEMA` (Draft 2020-12:
two `required` keys, string-typed properties, `IntendedFor` as above;
`additionalProperties` is permitted). -/
def coordSchemaErrorCount (data : Record) : Nat :=
  (coordRequiredFields.filter (fun k => !(dContains data k))).length
  + (coordSchemaStringProps.filter (fun k =>
      match dGet data k with
      | some v => !valueIsStr v
      | none => false)).length
  + (match dGet data "IntendedFor" with
     | some v => if intendedForOk v then 0 else 1
     | none => 0)

/-- Model of `self.data.get("iEEGCoordinateSystem", "").lower() == "other"`.
When this runs the schema pass has already succeeded, so a present value is a
string. -/
def coordSystemIsOther (data : Record) : Bool :=
  match dGet data "iEEGCoordinateSystem" with
  | some (.str s) => asciiLower s == "other"
  | _ => false

/-- The `missing_required` set of `CoordSystemSidecar.validate` after the
conditional rule: base required fields absent from the record, plus
`iEEGCoordinateSystemDescription` when the system is `"Other"` (case
insensitive) and the description key is absent. -/
def coordMissingRequired (data : Record) : List String :=
  (coordRequiredFields.filter (fun f => !(dContains data f)))
  ++ (if coordSystemIsOther data
        && !(dContains data "iEEGCoordinateSystemDescription")
      then ["iEEGCoordinateSystemDescription"] else [])

/-- Model of `CoordSystemSidecar.validate` on a record: schema errors raise
first, then a non-empty (sorted) missing-required set raises, otherwise the
call returns `True`. -/
def coordValidate (data : Record) : Except CoordError Bool :=
  if coordSchemaErrorCount data ≠ 0 then
    .error (.schemaErrors (coordSchemaErrorCount data))
  else if !(coordMissingRequired data).isEmpty then
    .error (.missingRequired (sortStrings (coordMissingRequired data)))
  else
    .ok true

example :
    coordValidate (jsonSidecarRecord coordDefaults
      [("iEEGCoordinateSystem", .str "Other")]) = .ok true := rfl

/-! ## TSV serialization

Models of `TSVSidecar.write_data` (base writer) and `ChannelsSidecar.save`.
Output is modelled as the list of written lines (the csv module terminates each
line with CRLF; terminators are not part of the model).  `csv.DictWriter` with
delimiter `"\t"` quotes a cell only when it contains the delimiter, the quote
character or a newline, writes `None` and missing keys as empty cells, and
`str()`s other values. -/

def renderFloat (m : Int) (d : Nat) : String :=
  if d = 0 then toString m ++ ".0"
  else
    let sign := if m < 0 then "-" else ""
    let digits := (toString m.natAbs).data
    let padded :=
      if digits.length < d + 1 then
        List.replicate (d + 1 - digits.length) '0' ++ digits
      else digits
    sign ++ String.mk (padded.take (padded.length - d)) ++ "." ++
      String.mk (padded.drop (padded.length - d))

/-- Model of Python `str()` on the scalar values that reach TSV cells.
Structured values (`obj`, `arr`) never occur in TSV rows in this repository and
render as a placeholder. -/
def renderValue : Value → String
  | .str s => s
  | .int n => toString n
  | .float m d => renderFloat m d
  | .bool b => if b then "True" else "False"
  | .null => "None"
  | .obj _ => "<dict>"
  | .arr _ => "<list>"

def csvNeedsQuote (s : String) : Bool :=
  s.data.any (fun c => c = '\t' || c = '"' || c = '\n' || c = '\r')

def csvQuote (s : String) : String :=
  "\"" ++ String.mk (s.data.flatMap (fun c => if c = '"' then ['"', '"'] else [c]))
    ++ "\""

def csvField (s : String) : String := if csvNeedsQuote s then csvQuote s else s

/-- One cell of a `DictWriter` row: missing keys take `restval` (the empty
string) and `None` is written as an empty cell. -/
def csvCellOfRow (row : Record) (f : String) : String :=
  match dGet row f with
  | none => ""
  | some .null => ""
  | some v => csvField (renderValue v)

def tsvRowLine (fieldnames : List String) (row : Record) : String :=
  String.intercalate "\t" (fieldnames.map (csvCellOfRow row))

def tsvHeaderLine (fieldnames : List String) : String :=
  String.intercalate "\t" (fieldnames.map csvField)

/-- Model of the base `TSVSidecar.write_data`: raises
`ValueError("No data provided to write.")` on an empty row list (before the
output file is opened, so nothing is written), takes the header from the FIRST
row's keys in insertion order, and rejects rows with keys outside that header
(`DictWriter`'s `extrasaction="raise"` default; by then earlier lines are
already on disk, which the `Except` model flattens to an error). -/
def tsvWriteData (data : List Record) : Except String (List String) :=
  match data with
  | [] => .error "No data provided to write."
  | first :: _ =>
    let fieldnames := dKeys first
    if data.all (fun row => (dKeys row).all fieldnames.contains) then
      .ok (tsvHeaderLine fieldnames :: data.map (tsvRowLine fieldnames))
    else
      .error "dict contains fields not in fieldnames"

/-- Model of the fieldnames computation in `ChannelsSidecar.save`: declared
`COLUMN_ORDER` columns that occur in the data, in declared order, followed by
the remaining observed columns sorted; for empty data the bare `COLUMN_ORDER`. -/
def channelsFieldnames (data : List Record) : List String :=
  match data with
  | [] => channelsColumnOrder
  | _ =>
    (channelsColumnOrder.filter (fun c => (observedFields data).contains c))
      ++ sortStrings ((observedFields data).filter
          (fun c => !(channelsColumnOrder.contains c)))

/-- Lines written by `ChannelsSidecar.save` (header plus one line per row; with
empty data `writerows([])` writes nothing after the header). -/
def channelsWriteLines (data : List Record) : List String :=
  tsvHeaderLine (channelsFieldnames data)
    :: data.map (tsvRowLine (channelsFieldnames data))

/-- Model of `ChannelsSidecar.save`: first component is the written file
content (the method never raises on any row list), second component records
whether a validation-failure warning was logged (`validate=True` and
`validate(data)` returned `ok=False`); the saved path is returned unchanged by
the source and is not modelled. -/
def channelsSave (data : List Record) (validate : Bool) :
    List String × Bool :=
  (channelsWriteLines data, validate && !(channelsValidate data).1)

/-- Model of the base `Sidecar.save` used by the non-channels TSV sidecars,
with the validator passed explicitly (`self.validate`): the validation result
is only logged and the rows are written regardless. -/
def tsvBaseSave (validateFn : List Record → Bool × VReport)
    (data : List Record) (validate : Bool) :
    Except String (List String) × Bool :=
  (tsvWriteData data, validate && !(validateFn data).1)

/-! ## JSON sidecar save

`Sidecar.save` runs `ok, report = self.validate(data)` when `validate=True`.
Every JSON sidecar (`coordsystem.py`, `ieeg.py`, `eeg.py`, `participants.py`)
overrides `validate` with signature `validate(self)` — no data parameter — so
in CPython this call raises `TypeError: validate() takes 1 positional argument
but 2 were given` before anything is validated or written.  (Were the call
dispatched, these validators raise `ValueError` on failure instead of
returning `(ok, report)`, so a failure would still propagate and abort the
write.)  With `validate=False` the record is serialized as indented JSON and
the file path returned. -/

inductive PySaveError where
  | typeError

/-- Model of `CoordSystemSidecar(...).save(validate=...)` observable outcome:
the record written on success, or the exception. -/
def coordSave (fields : Record) (validate : Bool) :
    Except PySaveError Record :=
  if validate then .error .typeError
  else .ok (jsonSidecarRecord coordDefaults fields)

/-! ## Duplicate file naming

Models of `_get_duplicate_name` / `_get_original_name` from
`dataset_manager/packages.py`.  For a separator-free filename (as produced by
`Path(file_path).name`), `Path(filename).suffix` is the part from the last "."
on, provided that dot is neither the first nor the last character; otherwise
the suffix is empty and the stem is the whole name.  Both directions are
implemented on the reversed character list, where "the last dot" is the first
dot. -/

/-- Splits `rev` (a reversed filename) into `(stemRev, extRev)` when a
non-empty Python suffix exists: `extRev` is the non-empty dot-free tail after
the last "." and `stemRev` the non-empty part before it. -/
def splitExtRev (rev : List Char) : Option (List Char × List Char) :=
  match rev.takeWhile (fun c => c != '.'), rev.dropWhile (fun c => c != '.') with
  | [], _ => none
  | nd, '.' :: b :: bs => some (b :: bs, nd)
  | _, _ => none

/-- Model of `(Path(name).stem, Path(name).suffix)` for a separator-free
filename. -/
def pathSplitExt (name : String) : String × String :=
  match splitExtRev name.data.reverse with
  | some (stemRev, extRev) =>
    (String.mk stemRev.reverse, String.mk ('.' :: extRev.reverse))
  | none => (name, "")

/-- Model of `_get_duplicate_name`: `f"{stem} (1){suffix}"`. -/
def getDuplicateName (filename : String) : String :=
  (pathSplitExt filename).1 ++ " (1)" ++ (pathSplitExt filename).2

/-- Model of the regex `^(.+) \(1\)(\.[^.]+)$` of `_get_original_name`, run on
the reversed name: group 2 must be the last dot plus a non-empty dot-free
tail, preceded by literal `" (1)"`, preceded by the non-empty group 1. -/
def parseDupRev (rev : List Char) : Option (List Char × List Char) :=
  match rev.takeWhile (fun c => c != '.'), rev.dropWhile (fun c => c != '.') with
  | [], _ => none
  | nd, '.' :: ')' :: '1' :: '(' :: ' ' :: a :: as => some (a :: as, nd)
  | _, _ => none

/-- Model of `_get_original_name`: `f"{group1}{group2}"` when the pattern
matches, the input unchanged otherwise. -/
def getOriginalName (dupName : String) : String :=
  match parseDupRev dupName.data.reverse with
  | some (stemRev, extRev) =>
    String.mk (stemRev.reverse ++ '.' :: extRev.reverse)
  | none => dupName

example : getDuplicateName "file.json" = "file (1).json" := rfl
example : getOriginalName "file (1).json" = "file.json" := rfl
example : getDuplicateName "README" = "README (1)" := rfl
example : getOriginalName "README (1)" = "README (1)" := rfl

/-! ## Packages

A package as the core reads it: the fields of `pkg["content"]`.  Missing
`id`/`name`/`state` default to the empty string (matching the sources'
`content.get(..., "")` and the truthiness tests on them); a missing `parentId`
is `none`. -/

structure Package where
  id : String
  nodeId : String
  name : String
  parentId : Option String
  packageType : String
  state : String

/-- Model of `is_deleted` (channels_processor.py): `state` in
`("DELETED", "DELETING")`. -/
def isDeletedPkg (p : Package) : Bool :=
  p.state = "DELETED" || p.state = "DELETING"

/-- The `pkg_lookup` dict of `get_package_path`: id → package for packages
with a truthy id. -/
def buildPkgLookup (pkgs : List Package) : List (String × Package) :=
  pkgs.foldl (fun m p => if p.id = "" then m else dInsert m p.id p) []

/-- Model of the `while True` walk of `get_package_path`, made total with a
fuel parameter: `some pathParts` means the loop reached its `break` (missing or
unresolvable parent) with the given accumulated parts, `none` means the loop
was still running after `fuel` iterations.  The source has no visited-set
guard, so on a parent cycle this returns `none` for every fuel. -/
def getPackagePathAux (lookup : List (String × Package)) :
    Nat → Package → List String → Option (List String)
  | 0, _, _ => none
  | fuel + 1, current, pathParts =>
    match current.parentId with
    | none => some pathParts
    | some pid =>
      if pid = "" then some pathParts
      else
        match dGet lookup pid with
        | none => some pathParts
        | some parent =>
          getPackagePathAux lookup fuel parent
            (if parent.name = "" then pathParts else parent.name :: pathParts)

/-- Model of `get_package_path(package, all_packages)` under a fuel bound:
`some path` is the returned `"/".join(path_parts)`. -/
def getPackagePath (pkgs : List Package) (package : Package) (fuel : Nat) :
    Option String :=
  (getPackagePathAux (buildPkgLookup pkgs) fuel package []).map
    (String.intercalate "/")

/-! ## Duplicate cleanup (`cleanup_duplicates`)

The per-candidate state machine, with the `pkg_by_location` lookup and the
`delete_package` / `rename_package` outcomes abstracted as oracles.  The
`Bool` result is success; the action list records the remote operations
attempted, in order. -/

inductive PkgAction where
  | delete (nodeId : String)
  | rename (nodeId : String) (newName : String)

/-- One iteration of the `cleanup_duplicates` loop for candidate
`(folder, filename)`: skip unless both the original and its `" (1)"` duplicate
exist at that folder; otherwise delete the original (skip on failure without
attempting the rename), then rename the duplicate to the original name (skip
on failure); success only when both operations succeed. -/
def cleanupStep (lookup : String × String → Option Package)
    (deleteOk : String → Bool) (renameOk : String → String → Bool)
    (folder filename : String) : Bool × List PkgAction :=
  let dupName := getDuplicateName filename
  match lookup (folder, filename), lookup (folder, dupName) with
  | none, none => (false, [])
  | some _, none => (false, [])
  | none, some _ => (false, [])
  | some orig, some dup =>
    if deleteOk orig.nodeId then
      if renameOk dup.nodeId filename then
        (true, [.delete orig.nodeId, .rename dup.nodeId filename])
      else
        (false, [.delete orig.nodeId, .rename dup.nodeId filename])
    else
      (false, [.delete orig.nodeId])

/-- Aggregation over all candidates: `(success_count, skip_count)`. -/
def cleanupDuplicates (lookup : String × String → Option Package)
    (deleteOk : String → Bool) (renameOk : String → String → Bool)
    (candidates : List (String × String)) : Nat × Nat :=
  candidates.foldl
    (fun acc c =>
      if (cleanupStep lookup deleteOk renameOk c.1 c.2).1 then (acc.1 + 1, acc.2)
      else (acc.1, acc.2 + 1))
    (0, 0)

/-- The `pkg_by_location` dict of `cleanup_duplicates`: `(path, name) → pkg`
over ALL packages of the dataset (`pathOf` abstracts
`self.get_package_path(pkg, packages)`); note no package state is consulted. -/
def buildLocationMap (pkgs : List Package) (pathOf : Package → String) :
    List ((String × String) × Package) :=
  pkgs.foldl (fun m p => dInsert m (pathOf p, p.name) p) []

/-- The full matchable path of `delete_by_pattern` / `delete_by_path`:
`f"{pkg_path}/{name}" if pkg_path else name`. -/
def fullPathOf (pathOf : Package → String) (p : Package) : String :=
  if pathOf p = "" then p.name else pathOf p ++ "/" ++ p.name

/-- The `pkg_by_path` dict of `delete_by_path`, again over all packages with
no state filter. -/
def buildPathMap (pkgs : List Package) (pathOf : Package → String) :
    List (String × Package) :=
  pkgs.foldl (fun m p => dInsert m (fullPathOf pathOf p) p) []

/-! ## Channel-row building scan (`channels_processor.process_dataset`)

The single pass over a dataset's packages that collects channel rows.  The
external collaborators are oracles: `loadMeta` is the sampling frequency
obtained from `load_ieeg_metadata(node_id)` (with its `"n/a"` default),
`parentKeyOf` is `parent_id_reference[dataset_name].get(parent_id)`, and
`buildRow` is `build_channel_row(pkg_name, freq, reference, ground)` for the
dataset's fixed reference/ground.  Payload bookkeeping and electrode-file
caching have no effect on the produced rows and are not tracked. -/

inductive PkgClass where
  | ieegJson
  | electrodesCsv
  | electrodesTxt
  | mef

def listEndsWith (l suffix : List Char) : Bool :=
  decide (suffix.length ≤ l.length) && decide (l.drop (l.length - suffix.length) = suffix)

/-- Model of `classify_package`: tests on `pkg_name.lower().strip()`. -/
def classifyPackage (pkgName : String) : Option PkgClass :=
  let nameLower := pyStrip (asciiLower pkgName)
  if listEndsWith nameLower.data "implant_ieeg.json".data then some .ieegJson
  else if nameLower = "electrodes2roi_mni.csv" then some .electrodesCsv
  else if nameLower = "electrodes.txt" then some .electrodesTxt
  else if listEndsWith nameLower.data ".mef".data then some .mef
  else none

def multiDayKeys : List String := ["D01", "D02", "D03", "D04", "D05", "D06", "D07"]

structure ChannelsScanState where
  freqByParent : List (Option String × String)
  defaultFreq : String
  rowsByParent : List (Option String × List Record)

/-- The body of the package loop of `process_dataset` (lines 289-334):
deleted/deleting packages are skipped outright, unclassified packages are
skipped, an `implant_ieeg.json` records the sampling frequency (per parent for
multi-day datasets, as the default otherwise), electrode files only feed the
cache, and a `.mef` appends one channel row under its parent id. -/
def scanStep (loadMeta : String → String)
    (parentKeyOf : Option String → Option String)
    (buildRow : String → String → Record)
    (st : ChannelsScanState) (pkg : Package) : ChannelsScanState :=
  if isDeletedPkg pkg then st
  else
    match classifyPackage pkg.name with
    | none => st
    | some .ieegJson =>
      let freq := loadMeta pkg.nodeId
      match parentKeyOf pkg.parentId with
      | some parentKey =>
        if multiDayKeys.contains parentKey then
          { st with freqByParent := dInsert st.freqByParent pkg.parentId freq }
        else { st with defaultFreq := freq }
      | none => { st with defaultFreq := freq }
    | some .electrodesCsv => st
    | some .electrodesTxt => st
    | some .mef =>
      let freq := (dGet st.freqByParent pkg.parentId).getD st.defaultFreq
      let row := buildRow pkg.name freq
      let rows := (dGet st.rowsByParent pkg.parentId).getD [] ++ [row]
      { st with rowsByParent := dInsert st.rowsByParent pkg.parentId rows }

/-- The whole scan: fold of `scanStep` from the empty tracking state with
`default_sampling_freq = "n/a"`. -/
def scanPackages (loadMeta : String → String)
    (parentKeyOf : Option String → Option String)
    (buildRow : String → String → Record)
    (pkgs : List Package) : ChannelsScanState :=
  pkgs.foldl (scanStep loadMeta parentKeyOf buildRow) ⟨[], "n/a", []⟩

/-! ## Claim theorems -/

/-- C1 (counterexample): the claim fails as stated for JSON sidecars on the
path-configuration keys.  Supplying `output_dir` in a `CoordSystemSidecar`
field mapping does not make it a key of the effective record: the base
constructor filters `excluded_fields` out of the merged mapping, so the key is
absent even though it is in the supplied mapping. -/
theorem merge_claim_fails_on_path_keys :
    dGet [("output_dir", Value.str "x")] "output_dir" = some (.str "x")
    ∧ dGet (jsonSidecarRecord coordDefaults [("output_dir", Value.str "x")])
        "output_dir" = none :=
  ⟨rfl, rfl⟩

/-- C1 (amended): for every sidecar default table and caller-supplied mapping
(or row) with distinct keys, the effective record takes the supplied value
when the key is supplied, else the default value, and omits keys in neither —
at every key for TSV rows (constructor and `add_row` both store
`{**ROW_DEFAULTS, **row}`), and at every key outside the three
path-configuration keys for JSON records; a supplied path-configuration key is
dropped from a JSON record (routed to path configuration instead). -/
theorem merge_defaults_override_semantics (supplied : Record)
    (hs : NodupKeys supplied) (k : String) :
    (∀ rowDefaults : Record,
      dGet (mergedRow rowDefaults supplied) k
        = Option.or (dGet supplied k) (dGet rowDefaults k))
    ∧ (k ∉ sidecarExcludedFields →
        ∀ defaults : Record,
          dGet (jsonSidecarRecord defaults supplied) k
            = Option.or (dGet supplied k) (dGet defaults k))
    ∧ (k ∈ sidecarExcludedFields →
        ∀ defaults : Record, dGet (jsonSidecarRecord defaults supplied) k = none)
    ∧ dGet (mergedRow channelsRowDefaults supplied) k
        = Option.or (dGet supplied k) (dGet channelsRowDefaults k)
    ∧ dGet (mergedRow electrodesRowDefaults supplied) k
        = Option.or (dGet supplied k) (dGet electrodesRowDefaults k)
    ∧ dGet (mergedRow eventsRowDefaults supplied) k
        = Option.or (dGet supplied k) (dGet eventsRowDefaults k)
    ∧ dGet (mergedRow participantsTsvRowDefaults supplied) k
        = Option.or (dGet supplied k) (dGet participantsTsvRowDefaults k)
    ∧ (k ∉ sidecarExcludedFields →
        dGet (jsonSidecarRecord coordDefaults supplied) k
          = Option.or (dGet supplied k) (dGet coordDefaults k)
        ∧ dGet (jsonSidecarRecord ieegDefaults supplied) k
          = Option.or (dGet supplied k) (dGet ieegDefaults k)
        ∧ dGet (jsonSidecarRecord eegDefaults supplied) k
          = Option.or (dGet supplied k) (dGet eegDefaults k)
        ∧ dGet (jsonSidecarRecord participantsJsonDefaults supplied) k
          = Option.or (dGet supplied k) (dGet participantsJsonDefaults k)) := by
  have hrow : ∀ rowDefaults : Record,
      dGet (mergedRow rowDefaults supplied) k
        = Option.or (dGet supplied k) (dGet rowDefaults k) :=
    fun d => dGet_merge d supplied hs k
  have hjson : k ∉ sidecarExcludedFields →
      ∀ defaults : Record,
        dGet (jsonSidecarRecord defaults supplied) k
          = Option.or (dGet supplied k) (dGet defaults k) := by
    intro hk defaults
    unfold jsonSidecarRecord sidecarDataOf
    rw [dGet_filter_key (fun x => !(sidecarExcludedFields.contains x))
      (dMerge defaults supplied) k]
    have hc : sidecarExcludedFields.contains k = false := by
      simp [List.elem_iff, hk]
    rw [hc]
    simpa using dGet_merge defaults supplied hs k
  have hjsonDrop : k ∈ sidecarExcludedFields →
      ∀ defaults : Record, dGet (jsonSidecarRecord defaults supplied) k = none := by
    intro hk defaults
    unfold jsonSidecarRecord sidecarDataOf
    rw [dGet_filter_key (fun x => !(sidecarExcludedFields.contains x))
      (dMerge defaults supplied) k]
    have hc : sidecarExcludedFields.contains k = true := by
      simp [List.elem_iff, hk]
    rw [hc]
    simp
  refine ⟨hrow, hjson, hjsonDrop, hrow _, hrow _, hrow _, hrow _, fun hk => ?_⟩
  exact ⟨hjson hk _, hjson hk _, hjson hk _, hjson hk _⟩

/-- Witness for the amended C1 theorem at a concrete row: a channels row
supplying only `name` gets `type` from the defaults. -/
theorem merge_defaults_override_semantics_witness :
    dGet (mergedRow channelsRowDefaults [("name", Value.str "LA01")]) "type"
      = some (.str "SEEG") := by
  have h := merge_defaults_override_semantics [("name", Value.str "LA01")]
    (by simp [NodupKeys, dKeys]) "type"
  rw [h.2.2.2.1]
  rfl

/-- C4 (counterexample): `CoordSystemSidecar({"iEEGCoordinateSystem":
"Other"})` passes `validate()` — the constructor merges `DEFAULTS`, which
already provides `iEEGCoordinateSystemDescription`, so the conditional rule
never fires for a constructor-built record and no missing-required error is
raised, contrary to the claimed failing scenario. -/
theorem coordsystem_other_scenario_passes :
    coordValidate (jsonSidecarRecord coordDefaults
      [("iEEGCoordinateSystem", .str "Other")]) = .ok true := rfl

/-- C4 (amended): the conditional escalation is real but only reachable on a
record that actually lacks the description: whenever the schema pass succeeds,
the coordinate system is the string `"Other"` and
`iEEGCoordinateSystemDescription` is absent, `validate` raises a
missing-required error naming `iEEGCoordinateSystemDescription`. -/
theorem coordsystem_other_requires_description (data : Record)
    (hschema : coordSchemaErrorCount data = 0)
    (hother : dGet data "iEEGCoordinateSystem" = some (.str "Other"))
    (hnodesc : dContains data "iEEGCoordinateSystemDescription" = false) :
    ∃ fs, coordValidate data = .error (.missingRequired fs)
      ∧ "iEEGCoordinateSystemDescription" ∈ fs := by
  have hisOther : coordSystemIsOther data = true := by
    rw [coordSystemIsOther, hother]
    rfl
  have hmr : coordMissingRequired data
      = (coordRequiredFields.filter (fun f => !(dContains data f)))
        ++ ["iEEGCoordinateSystemDescription"] := by
    rw [coordMissingRequired, hisOther, hnodesc]
    rfl
  refine ⟨sortStrings (coordMissingRequired data), ?_, ?_⟩
  · rw [coordValidate, if_neg (by simp [hschema]), if_pos ?_]
    have : coordMissingRequired data ≠ [] := by
      rw [hmr]
      simp
    simpa [List.isEmpty_iff] using this
  · rw [mem_sortStrings, hmr]
    simp

/-- C5 (counterexample): a JSON sidecar refutes the claim that `save` with
`validate=True` never raises and always writes: for `CoordSystemSidecar` the
call raises (`self.validate(data)` does not match the subclass's
zero-argument `validate`) and no file is produced. -/
theorem json_save_validate_raises :
    coordSave [] true = .error .typeError := rfl

/-- C5 (amended): `ChannelsSidecar.save` (and the base save used by the other
TSV sidecars) with `validate=True` runs validation, only logs on failure,
writes the same content an unvalidated save would write and returns the path;
the JSON sidecar types instead raise before writing, because their `validate`
takes no data argument (and raises rather than returning a report). -/
theorem save_validate_logs_and_writes (rows : List Record)
    (validateFn : List Record → Bool × VReport) (fields : Record) :
    (channelsSave rows true).1 = channelsWriteLines rows
    ∧ (channelsSave rows true).1 = (channelsSave rows false).1
    ∧ ((channelsSave rows true).2 = true ↔ (channelsValidate rows).1 = false)
    ∧ (channelsSave rows true).1.length = rows.length + 1
    ∧ (tsvBaseSave validateFn rows true).1 = tsvWriteData rows
    ∧ coordSave fields true = .error .typeError := by
  refine ⟨rfl, rfl, ?_, ?_, rfl, rfl⟩
  · simp [channelsSave]
  · simp [channelsSave, channelsWriteLines]

/-- C6 (counterexample): in the events sidecar a numeric-parse failure is an
ERROR and validation fails, not a warning as claimed: a single well-formed row
with a non-numeric `onset` yields `ok = False` with the finding in `errors`
and empty `warnings`. -/
theorem events_nonnumeric_is_error :
    eventsValidate [[("onset", Value.str "abc"), ("duration", Value.str "1")]]
      = (false, ⟨[.nonNumeric 1 "onset" (.str "abc")], [], ["duration", "onset"]⟩) :=
  rfl

/-- C6 (amended): over any non-empty row list, a value outside
`{None, "n/a", "N/A"}` that fails numeric parsing is a warning only for the
channels sidecar (whose validation outcome depends solely on missing required
fields), and an error — failing validation — for both the electrodes AND the
events sidecars. -/
theorem numeric_parse_severity (data : List Record) (hne : data ≠ []) :
    ((channelsValidate data).1 = true ↔ channelsMissingRequired data = [])
    ∧ (∀ m ∈ numericMsgsFieldMajor channelsNumericFields data,
        m ∈ (channelsValidate data).2.warnings)
    ∧ ((eventsValidate data).1 = true
        ↔ (eventsMissingRequired data = [] ∧ eventsNumericErrors data = []))
    ∧ (∀ m ∈ eventsNumericErrors data, m ∈ (eventsValidate data).2.errors)
    ∧ ((electrodesValidate data).1 = true
        ↔ (electrodesMissingRequired data = [] ∧ electrodesNumericErrors data = []))
    ∧ (∀ m ∈ electrodesNumericErrors data, m ∈ (electrodesValidate data).2.errors) := by
  have hemp : data.isEmpty = false := by
    cases data with
    | nil => exact absurd rfl hne
    | cons a t => rfl
  refine ⟨?_, ?_, ?_, ?_, ?_, ?_⟩
  · by_cases h : channelsMissingRequired data = [] <;>
      simp [channelsValidate, hemp, h]
  · intro m hm
    simp only [channelsValidate, hemp, Bool.false_eq_true, if_false]
    exact List.mem_append.mpr (Or.inr hm)
  · by_cases h : eventsMissingRequired data = [] <;>
      simp [eventsValidate, hemp, h, List.append_eq_nil]
  · intro m hm
    simp only [eventsValidate, hemp, Bool.false_eq_true, if_false]
    exact List.mem_append.mpr (Or.inr hm)
  · by_cases h : electrodesMissingRequired data = [] <;>
      simp [electrodesValidate, hemp, h, List.append_eq_nil]
  · intro m hm
    simp only [electrodesValidate, hemp, Bool.false_eq_true, if_false]
    exact List.mem_append.mpr (Or.inr hm)

/-- Witness for the amended C6 theorem at a concrete row list. -/
theorem numeric_parse_severity_witness :
    ((eventsValidate [[("onset", Value.str "abc"), ("duration", Value.str "1")]]).1 = true
      ↔ (eventsMissingRequired [[("onset", Value.str "abc"), ("duration", Value.str "1")]] = []
          ∧ eventsNumericErrors [[("onset", Value.str "abc"), ("duration", Value.str "1")]] = [])) :=
  (numeric_parse_severity [[("onset", Value.str "abc"), ("duration", Value.str "1")]]
    (List.cons_ne_nil _ _)).2.2.1

/-- C7 (counterexample): the base TSV writer (used by the electrodes, events
and participants TSV sidecars) takes the header from the first row's keys in
insertion order, not from the union ordered by a declared column order plus
sorted extras: for the single row `{"b": 1, "a": 2}` the written header is
`"b\ta"`, not the sorted `"a\tb"` the claim requires. -/
theorem base_tsv_header_not_ordered :
    tsvWriteData [[("b", Value.int 1), ("a", Value.int 2)]] = .ok ["b\ta", "1\t2"]
    ∧ sortStrings (observedFields [[("b", Value.int 1), ("a", Value.int 2)]])
        = ["a", "b"]
    ∧ ("b\ta" : String) ≠ "a\tb" :=
  ⟨rfl, rfl, by decide⟩

/-- C7 (amended): only `ChannelsSidecar.save` implements the claimed layout:
for non-empty rows it writes one header (whose columns are exactly the union
of the rows' keys, with the declared `COLUMN_ORDER` columns first in declared
order and the remaining columns sorted) followed by one tab-delimited line per
row; the base TSV writer instead uses the first row's keys in insertion order
as the header (and accepts later rows only when their keys fall inside it). -/
theorem channels_header_layout (rows : List Record) (hne : rows ≠ []) :
    ((channelsWriteLines rows).length = rows.length + 1)
    ∧ (channelsWriteLines rows).head? = some (tsvHeaderLine (channelsFieldnames rows))
    ∧ (∀ c, c ∈ channelsFieldnames rows ↔ c ∈ observedFields rows)
    ∧ channelsFieldnames rows
        = channelsColumnOrder.filter (fun c => (observedFields rows).contains c)
          ++ sortStrings ((observedFields rows).filter
              (fun c => !(channelsColumnOrder.contains c)))
    ∧ (sortStrings ((observedFields rows).filter
        (fun c => !(channelsColumnOrder.contains c)))).Sorted strLe
    ∧ (∀ first rest, rows = first :: rest →
        rows.all (fun row => (dKeys row).all (dKeys first).contains) = true →
        tsvWriteData rows
          = .ok (tsvHeaderLine (dKeys first) :: rows.map (tsvRowLine (dKeys first)))) := by
  obtain ⟨r, t, rfl⟩ : ∃ r t, rows = r :: t := by
    cases rows with
    | nil => exact absurd rfl hne
    | cons r t => exact ⟨r, t, rfl⟩
  refine ⟨by simp [channelsWriteLines], rfl, ?_, rfl, sortStrings_sorted _, ?_⟩
  · intro c
    show c ∈ channelsColumnOrder.filter _ ++ sortStrings _ ↔ _
    rw [List.mem_append, mem_sortStrings, List.mem_filter, List.mem_filter]
    constructor
    · rintro (⟨_, hc⟩ | ⟨hc, _⟩)
      · exact List.elem_iff.mp hc
      · exact hc
    · intro hc
      by_cases ho : c ∈ channelsColumnOrder
      · exact Or.inl ⟨ho, List.elem_iff.mpr hc⟩
      · refine Or.inr ⟨hc, ?_⟩
        simp [List.elem_iff, ho]
  · intro first rest heq hall
    cases heq
    simp [tsvWriteData, hall]

/-- Witness for the amended C7 theorem at a concrete one-row list. -/
theorem channels_header_layout_witness :
    ("name" ∈ channelsFieldnames [[("name", Value.str "LA01")]]
      ↔ "name" ∈ observedFields [[("name", Value.str "LA01")]]) :=
  (channels_header_layout [[("name", Value.str "LA01")]]
    (List.cons_ne_nil _ _)).2.2.1 "name"

/-- C8 (counterexample): `ChannelsSidecar.save` with an empty row sequence
does not raise and does produce an output file: it writes a header-only TSV
(the bare `COLUMN_ORDER`) and returns normally. -/
theorem channels_save_empty_writes_header :
    channelsSave [] false
      = (["name\ttype\tunits\tlow_cutoff\thigh_cutoff\treference\tground\tgroup\tsampling_frequency\tnotch"],
         false) := rfl

/-- C8 (amended): the base `TSVSidecar.write_data` raises
`ValueError("No data provided to write.")` on an empty row sequence before the
output file is opened (so no file is produced) — but `ChannelsSidecar.save`,
which bypasses the base writer, writes a header-only file from the bare
`COLUMN_ORDER` and does not raise. -/
theorem tsv_empty_write_behavior :
    tsvWriteData [] = .error "No data provided to write."
    ∧ channelsFieldnames [] = channelsColumnOrder
    ∧ channelsWriteLines [] = [tsvHeaderLine channelsColumnOrder] :=
  ⟨rfl, rfl, rfl⟩

theorem countP_bool_split {α : Type} (p : α → Bool) (l : List α) :
    l.countP p + l.countP (fun c => !(p c)) = l.length := by
  induction l with
  | nil => rfl
  | cons hd t ih =>
    by_cases h : p hd <;>
      simp [List.countP_cons, h, List.length_cons] <;> omega

theorem foldl_succ_skip_count {α : Type} (p : α → Bool) (l : List α) :
    ∀ a b : Nat,
      l.foldl (fun acc c => if p c then (acc.1 + 1, acc.2) else (acc.1, acc.2 + 1))
          (a, b)
        = (a + l.countP p, b + l.countP (fun c => !(p c))) := by
  induction l with
  | nil => intro a b; simp
  | cons hd t ih =>
    intro a b
    by_cases h : p hd <;>
      simp [List.foldl_cons, h, ih, List.countP_cons] <;> omega

/-- C2: the duplicate-reconciliation state machine behaves as specified for
every candidate: any missing member of the (original, duplicate) pair is a
skip with no remote operation; when both exist, the original is deleted first,
a delete failure skips without attempting the rename, a rename failure after a
successful delete still counts as a skip, only both steps succeeding counts as
one success; and the call aggregates `(success_count, skip_count)` over all
candidates, summing to the candidate count. -/
theorem cleanup_duplicates_state_machine
    (lookup : String × String → Option Package)
    (deleteOk : String → Bool) (renameOk : String → String → Bool) :
    (∀ folder filename,
      (lookup (folder, filename) = none ∨
        lookup (folder, getDuplicateName filename) = none) →
      cleanupStep lookup deleteOk renameOk folder filename = (false, []))
    ∧ (∀ folder filename orig dup,
        lookup (folder, filename) = some orig →
        lookup (folder, getDuplicateName filename) = some dup →
        deleteOk orig.nodeId = false →
        cleanupStep lookup deleteOk renameOk folder filename
          = (false, [.delete orig.nodeId]))
    ∧ (∀ folder filename orig dup,
        lookup (folder, filename) = some orig →
        lookup (folder, getDuplicateName filename) = some dup →
        deleteOk orig.nodeId = true →
        renameOk dup.nodeId filename = false →
        cleanupStep lookup deleteOk renameOk folder filename
          = (false, [.delete orig.nodeId, .rename dup.nodeId filename]))
    ∧ (∀ folder filename orig dup,
        lookup (folder, filename) = some orig →
        lookup (folder, getDuplicateName filename) = some dup →
        deleteOk orig.nodeId = true →
        renameOk dup.nodeId filename = true →
        cleanupStep lookup deleteOk renameOk folder filename
          = (true, [.delete orig.nodeId, .rename dup.nodeId filename]))
    ∧ (∀ candidates : List (String × String),
        cleanupDuplicates lookup deleteOk renameOk candidates
          = (candidates.countP
                (fun c => (cleanupStep lookup deleteOk renameOk c.1 c.2).1),
             candidates.countP
                (fun c => !(cleanupStep lookup deleteOk renameOk c.1 c.2).1)))
    ∧ (∀ candidates : List (String × String),
        (cleanupDuplicates lookup deleteOk renameOk candidates).1
          + (cleanupDuplicates lookup deleteOk renameOk candidates).2
          = candidates.length) := by
  have hagg : ∀ candidates : List (String × String),
      cleanupDuplicates lookup deleteOk renameOk candidates
        = (candidates.countP
              (fun c => (cleanupStep lookup deleteOk renameOk c.1 c.2).1),
           candidates.countP
              (fun c => !(cleanupStep lookup deleteOk renameOk c.1 c.2).1)) := by
    intro candidates
    unfold cleanupDuplicates
    rw [foldl_succ_skip_count]
    simp
  refine ⟨?_, ?_, ?_, ?_, hagg, ?_⟩
  · intro f n h
    rcases h with h | h
    · cases h₂ : lookup (f, getDuplicateName n) <;> simp [cleanupStep, h, h₂]
    · cases h₁ : lookup (f, n) <;> simp [cleanupStep, h, h₁]
  · intro f n orig dup h₁ h₂ hdel
    simp [cleanupStep, h₁, h₂, hdel]
  · intro f n orig dup h₁ h₂ hdel hren
    simp [cleanupStep, h₁, h₂, hdel, hren]
  · intro f n orig dup h₁ h₂ hdel hren
    simp [cleanupStep, h₁, h₂, hdel, hren]
  · intro candidates
    rw [hagg]
    exact countP_bool_split _ _

def origPkgW : Package :=
  { id := "p1", nodeId := "n:orig", name := "p.tsv", parentId := none,
    packageType := "TimeSeries", state := "READY" }

def dupPkgW : Package :=
  { id := "p2", nodeId := "n:dup", name := "p (1).tsv", parentId := none,
    packageType := "TimeSeries", state := "READY" }

def lookupW : String × String → Option Package :=
  fun loc => dGet (buildLocationMap [origPkgW, dupPkgW] (fun _ => "f")) loc

/-- Witness for the C2 theorem: with both `"p.tsv"` and `"p (1).tsv"` present
in folder `"f"` and both remote operations succeeding, the candidate succeeds
with exactly a delete of the original then a rename of the duplicate. -/
theorem cleanup_duplicates_state_machine_witness :
    cleanupStep lookupW (fun _ => true) (fun _ _ => true) "f" "p.tsv"
      = (true, [.delete "n:orig", .rename "n:dup" "p.tsv"]) := by
  have h := cleanup_duplicates_state_machine lookupW (fun _ => true) (fun _ _ => true)
  exact h.2.2.2.1 "f" "p.tsv" origPkgW dupPkgW rfl rfl rfl rfl

def cyclePkgA : Package :=
  { id := "a", nodeId := "n:a", name := "ieeg", parentId := some "b",
    packageType := "Collection", state := "READY" }

def cyclePkgB : Package :=
  { id := "b", nodeId := "n:b", name := "sub01", parentId := some "a",
    packageType := "Collection", state := "READY" }

/-- Two packages whose parent links form a 2-cycle: a malformed listing the
claim explicitly covers. -/
def cyclePkgs : List Package := [cyclePkgA, cyclePkgB]

theorem cyclePath_stuck (fuel : Nat) :
    ∀ acc,
      getPackagePathAux (buildPkgLookup cyclePkgs) fuel cyclePkgA acc = none
      ∧ getPackagePathAux (buildPkgLookup cyclePkgs) fuel cyclePkgB acc = none := by
  induction fuel with
  | zero => intro acc; exact ⟨rfl, rfl⟩
  | succ n ih =>
    intro acc
    refine ⟨?_, ?_⟩
    · show getPackagePathAux (buildPkgLookup cyclePkgs) n cyclePkgB
        ("sub01" :: acc) = none
      exact (ih _).2
    · show getPackagePathAux (buildPkgLookup cyclePkgs) n cyclePkgA
        ("ieeg" :: acc) = none
      exact (ih _).1

/-- C3: `get_package_path` does NOT satisfy the claimed termination bound —
it has no visited-id tracking, so on the 2-package parent cycle the walk is
still running after `fuel` iterations for EVERY fuel bound (in particular
after `|packages| = 2` steps); a revisited parent is never treated as a root.
The spec itself flags this hardening as required but absent from the source,
so the claim is recorded against the code. -/
theorem package_path_cycle_diverges (fuel : Nat) :
    getPackagePath cyclePkgs cyclePkgA fuel = none := by
  unfold getPackagePath
  rw [(cyclePath_stuck fuel []).1]
  rfl

theorem dContains_insert_self {κ α : Type} [DecidableEq κ]
    (m : List (κ × α)) (k : κ) (v : α) :
    dContains (dInsert m k v) k = true := by
  simp [dContains, dGet_insert]

theorem dContains_insert_of {κ α : Type} [DecidableEq κ]
    (m : List (κ × α)) (k' k : κ) (v : α) (h : dContains m k' = true) :
    dContains (dInsert m k v) k' = true := by
  simp only [dContains, dGet_insert]
  by_cases hk : k' = k
  · simp [hk]
  · simp only [hk, if_false]
    simpa [dContains] using h

theorem contains_foldl_insert {κ β : Type} [DecidableEq κ] (f : β → κ)
    (l : List β) :
    ∀ (init : List (κ × β)) (x : β),
      (x ∈ l ∨ dContains init (f x) = true) →
      dContains (l.foldl (fun m p => dInsert m (f p) p) init) (f x) = true := by
  induction l with
  | nil =>
    intro init x h
    rcases h with h | h
    · cases h
    · exact h
  | cons hd t ih =>
    intro init x h
    rw [List.foldl_cons]
    apply ih
    rcases h with h | h
    · rcases List.mem_cons.mp h with rfl | hmem
      · exact Or.inr (dContains_insert_self _ _ _)
      · exact Or.inl hmem
    · exact Or.inr (dContains_insert_of _ _ _ _ h)

theorem scan_skips_deleted (loadMeta : String → String)
    (parentKeyOf : Option String → Option String)
    (buildRow : String → String → Record) (pkgs : List Package) :
    ∀ st, pkgs.foldl (scanStep loadMeta parentKeyOf buildRow) st
      = (pkgs.filter (fun p => !(isDeletedPkg p))).foldl
          (scanStep loadMeta parentKeyOf buildRow) st := by
  induction pkgs with
  | nil => intro st; rfl
  | cons hd t ih =>
    intro st
    by_cases h : isDeletedPkg hd
    · have hstep : scanStep loadMeta parentKeyOf buildRow st hd = st := by
        simp [scanStep, h]
      rw [List.foldl_cons, hstep, List.filter_cons, if_neg (by simp [h])]
      exact ih st
    · rw [List.foldl_cons, List.filter_cons, if_pos (by simp [h]),
        List.foldl_cons]
      exact ih _

/-- C9 (amended): the DELETED/DELETING exclusion applies only to channel-row
building — `process_dataset`'s scan produces the same result as if the deleted
packages were removed from the listing — while the duplicate-cleanup
`(path, name)` lookup and the deletion-by-path lookup are built over ALL
packages: every package of the listing, whatever its state, is a lookup
target. -/
theorem deleted_state_exclusion_scope (loadMeta : String → String)
    (parentKeyOf : Option String → Option String)
    (buildRow : String → String → Record) (pkgs : List Package)
    (pathOf : Package → String) :
    scanPackages loadMeta parentKeyOf buildRow pkgs
      = scanPackages loadMeta parentKeyOf buildRow
          (pkgs.filter (fun p => !(isDeletedPkg p)))
    ∧ (∀ p ∈ pkgs,
        dContains (buildLocationMap pkgs pathOf) (pathOf p, p.name) = true)
    ∧ (∀ p ∈ pkgs,
        dContains (buildPathMap pkgs pathOf) (fullPathOf pathOf p) = true) := by
  refine ⟨scan_skips_deleted loadMeta parentKeyOf buildRow pkgs _, ?_, ?_⟩
  · intro p hp
    exact contains_foldl_insert (fun q => (pathOf q, q.name)) pkgs [] p (Or.inl hp)
  · intro p hp
    exact contains_foldl_insert (fullPathOf pathOf) pkgs [] p (Or.inl hp)

def deletedPkgW : Package :=
  { id := "d1", nodeId := "n:del", name := "p.tsv", parentId := none,
    packageType := "TimeSeries", state := "DELETED" }

/-- Witness for the amended C9 theorem: a DELETED package is a key of the
duplicate-cleanup location map. -/
theorem deleted_state_exclusion_scope_witness :
    dContains (buildLocationMap [deletedPkgW] (fun _ => "")) ("", "p.tsv")
      = true := by
  have h := deleted_state_exclusion_scope (fun _ => "n/a") (fun _ => none)
    (fun _ _ => []) [deletedPkgW] (fun _ => "")
  exact h.2.1 deletedPkgW (by simp)

def dupOfDeletedW : Package :=
  { id := "d2", nodeId := "n:dup2", name := "p (1).tsv", parentId := none,
    packageType := "TimeSeries", state := "READY" }

/-- C9 (counterexample): deleted packages are NOT excluded from the
duplicate-cleanup lookup: with a DELETED original and a live duplicate at the
dataset root, the deleted package is found by the location lookup and its node
is targeted for deletion, so the claimed exclusion fails for the
duplicate-cleanup operation. -/
theorem deleted_package_is_cleanup_target :
    isDeletedPkg deletedPkgW = true
    ∧ dGet (buildLocationMap [deletedPkgW, dupOfDeletedW] (fun _ => ""))
        ("", "p.tsv") = some deletedPkgW
    ∧ cleanupStep
        (fun loc => dGet (buildLocationMap [deletedPkgW, dupOfDeletedW]
          (fun _ => "")) loc)
        (fun _ => true) (fun _ _ => true) "" "p.tsv"
      = (true, [.delete "n:del", .rename "n:dup2" "p.tsv"]) :=
  ⟨rfl, rfl, rfl⟩

theorem takeWhile_append_all {α : Type} (p : α → Bool) (l₁ : List α) (x : α)
    (l₂ : List α) (h₁ : ∀ a ∈ l₁, p a = true) (hx : p x = false) :
    (l₁ ++ x :: l₂).takeWhile p = l₁ := by
  induction l₁ with
  | nil => simp [List.takeWhile_cons, hx]
  | cons a t ih =>
    have ha : p a = true := h₁ a (by simp)
    simp only [List.cons_append, List.takeWhile_cons, ha, if_true]
    rw [ih (fun b hb => h₁ b (by simp [hb]))]

theorem dropWhile_append_all {α : Type} (p : α → Bool) (l₁ : List α) (x : α)
    (l₂ : List α) (h₁ : ∀ a ∈ l₁, p a = true) (hx : p x = false) :
    (l₁ ++ x :: l₂).dropWhile p = x :: l₂ := by
  induction l₁ with
  | nil => simp [List.dropWhile_cons, hx]
  | cons a t ih =>
    have ha : p a = true := h₁ a (by simp)
    simp only [List.cons_append, List.dropWhile_cons, ha, if_true]
    exact ih (fun b hb => h₁ b (by simp [hb]))

theorem takeWhile_all_eq {α : Type} (p : α → Bool) (l : List α)
    (h : ∀ a ∈ l, p a = true) : l.takeWhile p = l := by
  induction l with
  | nil => rfl
  | cons a t ih =>
    simp only [List.takeWhile_cons, h a (by simp), if_true]
    rw [ih (fun b hb => h b (by simp [hb]))]

theorem dropWhile_all_nil {α : Type} (p : α → Bool) (l : List α)
    (h : ∀ a ∈ l, p a = true) : l.dropWhile p = [] := by
  induction l with
  | nil => rfl
  | cons a t ih =>
    simp only [List.dropWhile_cons, h a (by simp), if_true]
    exact ih (fun b hb => h b (by simp [hb]))

theorem splitExtRev_of_shape (pre post : List Char) (hpre : pre ≠ [])
    (hpost : post ≠ []) (hnd : ∀ c ∈ post, (c != '.') = true) :
    splitExtRev (post.reverse ++ '.' :: pre.reverse)
      = some (pre.reverse, post.reverse) := by
  have hrevnd : ∀ c ∈ post.reverse, (c != '.') = true :=
    fun c hc => hnd c (List.mem_reverse.mp hc)
  obtain ⟨b, bs, hb⟩ : ∃ b bs, pre.reverse = b :: bs := by
    cases hp : pre.reverse with
    | nil => exact absurd (List.reverse_eq_nil_iff.mp hp) hpre
    | cons b bs => exact ⟨b, bs, rfl⟩
  obtain ⟨c, cs, hc⟩ : ∃ c cs, post.reverse = c :: cs := by
    cases hp : post.reverse with
    | nil => exact absurd (List.reverse_eq_nil_iff.mp hp) hpost
    | cons c cs => exact ⟨c, cs, rfl⟩
  unfold splitExtRev
  rw [takeWhile_append_all _ _ '.' _ hrevnd rfl,
    dropWhile_append_all _ _ '.' _ hrevnd rfl, hb, hc]
  rfl

theorem parseDupRev_of_shape (pre post : List Char) (hpre : pre ≠ [])
    (hnd : ∀ c ∈ post, (c != '.') = true) (hpost : post ≠ []) :
    parseDupRev (post.reverse ++ '.' :: (')' :: '1' :: '(' :: ' ' :: pre.reverse))
      = some (pre.reverse, post.reverse) := by
  have hrevnd : ∀ c ∈ post.reverse, (c != '.') = true :=
    fun c hc => hnd c (List.mem_reverse.mp hc)
  obtain ⟨b, bs, hb⟩ : ∃ b bs, pre.reverse = b :: bs := by
    cases hp : pre.reverse with
    | nil => exact absurd (List.reverse_eq_nil_iff.mp hp) hpre
    | cons b bs => exact ⟨b, bs, rfl⟩
  obtain ⟨c, cs, hc⟩ : ∃ c cs, post.reverse = c :: cs := by
    cases hp : post.reverse with
    | nil => exact absurd (List.reverse_eq_nil_iff.mp hp) hpost
    | cons c cs => exact ⟨c, cs, rfl⟩
  unfold parseDupRev
  rw [takeWhile_append_all _ _ '.' _ hrevnd rfl,
    dropWhile_append_all _ _ '.' _ hrevnd rfl, hb, hc]
  rfl

theorem splitExtRev_no_dot (rev : List Char)
    (h : ∀ c ∈ rev, (c != '.') = true) : splitExtRev rev = none := by
  unfold splitExtRev
  rw [takeWhile_all_eq _ _ h, dropWhile_all_nil _ _ h]
  cases rev with
  | nil => rfl
  | cons a t => rfl

theorem parseDupRev_no_dot (rev : List Char)
    (h : ∀ c ∈ rev, (c != '.') = true) : parseDupRev rev = none := by
  unfold parseDupRev
  rw [takeWhile_all_eq _ _ h, dropWhile_all_nil _ _ h]
  cases rev with
  | nil => rfl
  | cons a t => rfl

theorem splitExtRev_trailing_dot (t : List Char)
    (h : ∀ c ∈ t, (c != '.') = true) :
    splitExtRev (t ++ ['.']) = none := by
  unfold splitExtRev
  rw [takeWhile_append_all _ _ '.' _ h rfl, dropWhile_append_all _ _ '.' _ h rfl]
  cases t with
  | nil => rfl
  | cons a s => rfl

theorem parseDupRev_trailing_dot (t : List Char)
    (h : ∀ c ∈ t, (c != '.') = true) :
    parseDupRev (t ++ ['.']) = none := by
  unfold parseDupRev
  rw [takeWhile_append_all _ _ '.' _ h rfl, dropWhile_append_all _ _ '.' _ h rfl]
  cases t with
  | nil => rfl
  | cons a s => rfl

/-- Modelled from the claim wording: the filename has a non-empty extension,
i.e. a final "." followed by at least one non-dot character.  (Python's
`Path.suffix` additionally requires that this final dot is not the first
character of the name — the difference is what the counterexample exploits.) -/
def claimExtensionNonempty (name : String) : Bool :=
  match name.data.reverse.takeWhile (fun c => c != '.'),
      name.data.reverse.dropWhile (fun c => c != '.') with
  | _ :: _, '.' :: _ => true
  | _, _ => false

/-- C10 (counterexample): `".bashrc"` has a non-empty extension in the claim's
sense (its final "." is followed by non-dot characters), yet the round trip is
not the identity: `Path(".bashrc").suffix` is empty (the dot is the first
character), so the duplicate name is `".bashrc (1)"`, which the reverse
pattern does not match. -/
theorem dup_roundtrip_fails_leading_dot :
    claimExtensionNonempty ".bashrc" = true
    ∧ getDuplicateName ".bashrc" = ".bashrc (1)"
    ∧ getOriginalName ".bashrc (1)" = ".bashrc (1)"
    ∧ (".bashrc (1)" : String) ≠ ".bashrc" :=
  ⟨rfl, rfl, rfl, by decide⟩

/-- C10 (amended): mapping a filename to its duplicate name and back is the
identity exactly when the Python suffix is non-empty — the final "." is
neither the first nor the last character of the name; a filename containing no
"." at all, or whose only "." is its leading character, round-trips to the
"(1)"-suffixed name unchanged.  (The claim's weaker premise — any final "."
followed by a non-dot character — also admits leading-dot names such as
`".bashrc"`, where the identity fails.) -/
theorem dup_name_roundtrip (name : String) :
    (∀ pre post : List Char, name.data = pre ++ '.' :: post → pre ≠ [] →
      post ≠ [] → (∀ c ∈ post, (c != '.') = true) →
      getOriginalName (getDuplicateName name) = name)
    ∧ ((∀ c ∈ name.data, (c != '.') = true) →
      getOriginalName (getDuplicateName name) = getDuplicateName name)
    ∧ (∀ t : List Char, name.data = '.' :: t → (∀ c ∈ t, (c != '.') = true) →
      getOriginalName (getDuplicateName name) = getDuplicateName name) := by
  obtain ⟨cs⟩ := name
  refine ⟨?_, ?_, ?_⟩
  · intro pre post hdata hpre hpost hnd
    have hcs : cs = pre ++ '.' :: post := hdata
    subst hcs
    have hsplit : splitExtRev (pre ++ '.' :: post).reverse
        = some (pre.reverse, post.reverse) := by
      rw [List.reverse_append, List.reverse_cons, List.append_assoc,
        List.singleton_append]
      exact splitExtRev_of_shape pre post hpre hpost hnd
    have hdupdata : (getDuplicateName (String.mk (pre ++ '.' :: post))).data
        = pre ++ ' ' :: '(' :: '1' :: ')' :: '.' :: post := by
      unfold getDuplicateName pathSplitExt
      rw [show (String.mk (pre ++ '.' :: post)).data = pre ++ '.' :: post from rfl,
        hsplit]
      simp [String.data_append, List.reverse_reverse]
    unfold getOriginalName
    rw [hdupdata]
    have hrev : (pre ++ ' ' :: '(' :: '1' :: ')' :: '.' :: post).reverse
        = post.reverse ++ '.' :: (')' :: '1' :: '(' :: ' ' :: pre.reverse) := by
      simp
    rw [hrev, parseDupRev_of_shape pre post hpre hnd hpost]
    simp [List.reverse_reverse]
  · intro hnd
    have h₁ : splitExtRev (String.mk cs).data.reverse = none := by
      apply splitExtRev_no_dot
      intro c hc
      exact hnd c (List.mem_reverse.mp hc)
    have hdupdata : (getDuplicateName (String.mk cs)).data
        = cs ++ [' ', '(', '1', ')'] := by
      unfold getDuplicateName pathSplitExt
      rw [h₁]
      simp [String.data_append]
    unfold getOriginalName
    rw [hdupdata]
    have hparse : parseDupRev (cs ++ [' ', '(', '1', ')']).reverse = none := by
      apply parseDupRev_no_dot
      intro c hc
      rcases List.mem_append.mp (List.mem_reverse.mp hc) with h | h
      · exact hnd c h
      · simp only [List.mem_cons, List.not_mem_nil, or_false] at h
        rcases h with rfl | rfl | rfl | rfl <;> rfl
    rw [hparse]
  · intro t hdata hnd
    have hcs : cs = '.' :: t := hdata
    subst hcs
    have htrev : ∀ c ∈ t.reverse, (c != '.') = true :=
      fun c hc => hnd c (List.mem_reverse.mp hc)
    have h₁ : splitExtRev ('.' :: t).reverse = none := by
      rw [List.reverse_cons]
      exact splitExtRev_trailing_dot t.reverse htrev
    have hdupdata : (getDuplicateName (String.mk ('.' :: t))).data
        = ('.' :: t) ++ [' ', '(', '1', ')'] := by
      unfold getDuplicateName pathSplitExt
      rw [show (String.mk ('.' :: t)).data = '.' :: t from rfl, h₁]
      simp [String.data_append]
    unfold getOriginalName
    rw [hdupdata]
    have hparse : parseDupRev (('.' :: t) ++ [' ', '(', '1', ')']).reverse
        = none := by
      have hshape : (('.' :: t) ++ [' ', '(', '1', ')']).reverse
          = ((')' :: '1' :: '(' :: ' ' :: t.reverse) ++ ['.']) := by
        simp
      rw [hshape]
      apply parseDupRev_trailing_dot
      intro c hc
      simp only [List.mem_cons] at hc
      rcases hc with rfl | rfl | rfl | rfl | h
      · rfl
      · rfl
      · rfl
      · rfl
      · exact htrev c h
    rw [hparse]

/-- Witness for the amended C10 theorem at concrete names from both sides of
the case split. -/
theorem dup_name_roundtrip_witness :
    getOriginalName (getDuplicateName "file.json") = "file.json"
    ∧ getOriginalName (getDuplicateName "README") = getDuplicateName "README" := by
  constructor
  · exact (dup_name_roundtrip "file.json").1 ['f', 'i', 'l', 'e']
      ['j', 's', 'o', 'n'] rfl (by decide) (by decide) (by decide)
  · exact (dup_name_roundtrip "README").2.1 (by decide)

/-- Witness for the amended C4 theorem at a concrete record: coordinate
system `"Other"`, units present, no description. -/
theorem coordsystem_other_requires_description_witness :
    ∃ fs, coordValidate
        [("iEEGCoordinateSystem", Value.str "Other"),
         ("iEEGCoordinateUnits", Value.str "mm")]
      = .error (.missingRequired fs)
      ∧ "iEEGCoordinateSystemDescription" ∈ fs :=
  coordsystem_other_requires_description
    [("iEEGCoordinateSystem", Value.str "Other"),
     ("iEEGCoordinateUnits", Value.str "mm")]
    rfl rfl rfl
